import Mathlib

/-!
Verification development for the book-collection synchronization service
(src/src/services/bookCollectionServices.ts).

The TypeScript module keeps a reactive client state (books, topSeries,
loading flag, loading message) backed by localStorage, and reloads the
collection from a paginated remote listing: page 1 serially, pages 2..P
through a bounded-concurrency mapper with limit 5, then an enrichment pass
that fetches the series of every book whose series is still null, again
through the mapper with limit 5.

The embedding below is shallow: the reactive state becomes an explicit
`ClientState` record (with `storedBooks`/`storedTopSeries` standing for the
localStorage copies), the remote site becomes an `Env` of pure fetch
functions, and asynchronous completion nondeterminism becomes an explicit
schedule parameter resolved by a small round-based scheduler (`runPM`).
`parallelMap` itself is imported by the source from "@/utilities/Parallel",
a file absent from the repository snapshot, so it is modelled from the
specification (section 4.1); everything else is translated from the source.
-/

namespace BW

/-- A tracked book, mirroring `interface Book` in the source: `series` is the
nullable classification, `favorite` and `bookmark` are user-owned flags. -/
structure Book where
  id : Nat
  name : String
  series : Option String
  favorite : Bool
  bookmark : Bool
deriving DecidableEq

/-- A record as parsed out of a listing page by `loadAvailableBookList`:
only `id` and `name` are taken from the page (the parsed object's `series`
is always `null` and its flags are absent, so they carry no information). -/
structure FetchedBook where
  id : Nat
  name : String
deriving DecidableEq

/-- The `loadingMessage` payload `{ msg, error? }`; an omitted `error`
field is modelled as `false`. -/
structure LoadingMessage where
  msg : String
  error : Bool
deriving DecidableEq

/-- The reactive client state plus the localStorage copies written by
`saveBooks` and `switchTopSeries`. -/
structure ClientState where
  books : List Book
  topSeries : List String
  loading : Bool
  loadingMessage : Option LoadingMessage
  storedBooks : List Book
  storedTopSeries : List String
deriving DecidableEq

/-- The two error classifications returned by `loadAvailableBookList`:
`NO_LOGIN` (the response was a redirect) and `PARSING_ERROR` (the expected
record-list structure was not found in the retrieved page). -/
inductive FetchError where
  | noLogin
  | parsingError
deriving DecidableEq

/-- The remote site, abstracted at the interface of the two fetch helpers:
`fetchPage p` is the outcome of `loadAvailableBookList(p)`; `pagination` is
what `parsePageCount` finds on page 1's document (`none` means the
pagination structure is missing, in which case `parsePageCount` throws);
`fetchSeries id` is the outcome of `loadSeries(id)` (`none` means it
throws). -/
structure Env where
  fetchPage : Nat → Except FetchError (List FetchedBook)
  pagination : Option Nat
  fetchSeries : Nat → Option String

/-- The not-logged-in error message set when page 1 reports `NO_LOGIN`. -/
def noLoginMsg : String := "解析藏書失敗！請檢查是否已登入 Book Walker 網站。"

/-- The unparsable-page error message set when page 1 reports `PARSING_ERROR`. -/
def parsingErrorMsg : String :=
  "解析藏書失敗！請檢查 Book Walker 網站是否正常，或其版面改版需要更新助手。"

/-- The generic message set when some listing page beyond page 1 failed. -/
def somePagesFailedMsg : String := "解析藏書有部分失敗！請重試。"

/-- The listing-progress message, backtick template at line 71/86 of the source. -/
def loadingBooksMsg (k p : Nat) : String :=
  "藏書資料載入中 " ++ toString k ++ " / " ++ toString p

/-- The enrichment-progress message, backtick template at line 111 of the source. -/
def loadingSeriesMsg (k n : Nat) : String :=
  "系列資料載入中 " ++ toString k ++ " / " ++ toString n

/-- True exactly when `loadAvailableBookList` reported an error for the page. -/
def isErrorResult : Except FetchError (List FetchedBook) → Bool
  | .error _ => true
  | .ok _ => false

/-- The per-record merge inside `recordBookList`: `id` and `name` come from
the fetched record, `series`/`favorite`/`bookmark` come from the previous
record with the same id when one exists (via `originBooks.find`), otherwise
`null`/`false`/`false`. -/
def mergeBook (originBooks : List Book) (fb : FetchedBook) : Book :=
  match originBooks.find? (fun old => old.id == fb.id) with
  | some oldBook =>
    { id := fb.id, name := fb.name, series := oldBook.series,
      favorite := oldBook.favorite, bookmark := oldBook.bookmark }
  | none =>
    { id := fb.id, name := fb.name, series := none,
      favorite := false, bookmark := false }

/-- `recordBookList`: merge every fetched record against `originBooks`,
push the results onto `state.books`, then `saveBooks()` (modelled as copying
`books` into `storedBooks`). -/
def recordBookList (originBooks : List Book) (fetched : List FetchedBook)
    (s : ClientState) : ClientState :=
  let newBooks := s.books ++ fetched.map (mergeBook originBooks)
  { s with books := newBooks, storedBooks := newBooks }

/-- Modelled from the spec: the scheduler core of the bounded-concurrency
mapper of "@/utilities/Parallel" (absent from the repository snapshot),
specification section 4.1.  Tasks are identified by natural numbers.  While
an unstarted task exists and fewer than `limit` tasks are in flight, the
next task is started (spec: "as soon as one completes, the next unstarted
input (if any) is started, preserving the cap"); otherwise the schedule
picks which in-flight task completes next.  The returned list is the order
in which tasks complete.  Fuel makes the recursion structural; `2 * n + 1`
fuel suffices for `n` tasks. -/
def runPM (limit : Nat) : Nat → List Nat → List Nat → List Nat → List Nat
  | 0, _, _, _ => []
  | fuel + 1, toStart, inFlight, sched =>
    if toStart ≠ [] ∧ inFlight.length < limit then
      runPM limit fuel toStart.tail (inFlight ++ [toStart.headD 0]) sched
    else if inFlight ≠ [] then
      let i := inFlight.getD (sched.headD 0 % inFlight.length) 0
      i :: runPM limit fuel toStart (inFlight.erase i) sched.tail
    else []

/-- Modelled from the spec: the completion order of a batch of `tasks` run
under concurrency `limit`, resolved by the schedule `sched`. -/
def completionOrder (limit : Nat) (tasks sched : List Nat) : List Nat :=
  runPM limit (2 * tasks.length + 1) tasks [] sched

/-- Modelled from the spec: `parallelMap` of "@/utilities/Parallel"
(specification section 4.1), with the per-item asynchronous operation given
denotationally as `op : α → Except ε ρ` (`.error` is a raised/rejected
operation, captured as that input's failed result).  The output is in input
order; position `i` holds `none` only if task `i` never completed, which
the theorems below rule out for every `limit ≥ 1` and every schedule. -/
def parallelMap {α ε ρ : Type} (inputs : List α) (op : α → Except ε ρ)
    (limit : Nat) (sched : List Nat) : List (Option (Except ε ρ)) :=
  let cs := completionOrder limit (List.range inputs.length) sched
  (List.range inputs.length).map
    (fun i => if i ∈ cs then (inputs.get? i).map op else none)

/-- The pages `2 .. pageCount` fetched through `parallelMap`
(`Array.from({length: pageCount - 1}, (_, i) => i + 2)`). -/
def pagesNeedLoad (pageCount : Nat) : List Nat :=
  (List.range (pageCount - 1)).map (fun i => i + 2)

/-- The check `loadPageResults.some(error => error !== null)`: the per-page
op returns the page's error classification, or `null` on success, and the
mapper (section 4.1, proven below as `completionOrder_perm`) reports a
result for every page, so the check holds iff some page in `2..P` failed. -/
def anyPageFailed (fp : Nat → Except FetchError (List FetchedBook))
    (pageCount : Nat) : Bool :=
  (pagesNeedLoad pageCount).any (fun p => isErrorResult (fp p))

/-- One completion of the per-page op of the listing pass: on success the
page's records are merged and persisted via `recordBookList`, on failure
the state is untouched; then the progress callback sets the message to
`(done + 1) / pageCount` where `done` is the cumulative completion count. -/
def loadPageStep (fp : Nat → Except FetchError (List FetchedBook))
    (originBooks : List Book) (pageCount : Nat)
    (acc : ClientState × Nat) (page : Nat) : ClientState × Nat :=
  let s := match fp page with
    | .ok bs => recordBookList originBooks bs acc.1
    | .error _ => acc.1
  let done := acc.2 + 1
  ({ s with loadingMessage := some ⟨loadingBooksMsg (done + 1) pageCount, false⟩ },
   done)

/-- The indices of `state.books.filter(book => book.series === null)`: the
enrichment pass operates on the very entries of `state.books`, modelled here
by their positions. -/
def booksNeedSeriesIdx (books : List Book) : List Nat :=
  (List.range books.length).filter
    (fun i => ((books.get? i).map (fun b => b.series.isNone)).getD false)

/-- One completion of the per-book op of the enrichment pass: if
`loadSeries` returns a value, `book.series` is assigned in place and
`saveBooks()` runs; if it throws (`none`), the assignment and the save are
skipped and the rejection is captured by the mapper; then the progress
callback sets the message to `done / total`. -/
def loadSeriesStep (fs : Nat → Option String) (total : Nat)
    (acc : ClientState × Nat) (idx : Nat) : ClientState × Nat :=
  let s := acc.1
  let s1 := match s.books.get? idx with
    | some b =>
      match fs b.id with
      | some v =>
        let newBooks := s.books.set idx { b with series := some v }
        { s with books := newBooks, storedBooks := newBooks }
      | none => s
    | none => s
  let done := acc.2 + 1
  ({ s1 with loadingMessage := some ⟨loadingSeriesMsg done total, false⟩ }, done)

/-- The state after the listing-fetch stage when page 1 succeeded with
records `bs1` and `parsePageCount` returned `P`: books cleared, page 1
merged and persisted, progress message `1 / P` set, then pages `2..P`
processed in the completion order resolved by `sp` under limit 5. -/
def listingStageState (fp : Nat → Except FetchError (List FetchedBook))
    (bs1 : List FetchedBook) (P : Nat) (sp : List Nat)
    (s0 : ClientState) : ClientState :=
  let s2 := { s0 with loading := true, books := ([] : List Book) }
  let s3 := recordBookList s0.books bs1 s2
  let s4 := { s3 with loadingMessage := some ⟨loadingBooksMsg 1 P, false⟩ }
  ((completionOrder 5 (pagesNeedLoad P) sp).foldl
    (loadPageStep fp s0.books P) (s4, 0)).1

/-- `reloadCollection`, the synchronization pipeline.  The two schedule
arguments resolve the completion order of the two `parallelMap` batches
(pages, then series).  The second component of the result is `true` when
the run aborted with an unhandled exception: this happens exactly when page
1 parsed but `parsePageCount` threw, since that call (line 52 of the
source) is outside every try/catch.  Early `return`s leave `loading` at
`true`; only the full successful path clears it and the message. -/
def reloadCollection (env : Env) (sp ss : List Nat)
    (s0 : ClientState) : ClientState × Bool :=
  let s1 := { s0 with loading := true }
  let originBooks := s1.books
  let s2 := { s1 with books := ([] : List Book) }
  match env.fetchPage 1 with
  | .error .noLogin =>
    ({ s2 with loadingMessage := some ⟨noLoginMsg, true⟩ }, false)
  | .error .parsingError =>
    ({ s2 with loadingMessage := some ⟨parsingErrorMsg, true⟩ }, false)
  | .ok firstPageBooks =>
    match env.pagination with
    | none => (s2, true)
    | some pageCount =>
      let s3 := recordBookList originBooks firstPageBooks s2
      let s4 := { s3 with loadingMessage := some ⟨loadingBooksMsg 1 pageCount, false⟩ }
      let s5 := ((completionOrder 5 (pagesNeedLoad pageCount) sp).foldl
        (loadPageStep env.fetchPage originBooks pageCount) (s4, 0)).1
      if anyPageFailed env.fetchPage pageCount then
        ({ s5 with loadingMessage := some ⟨somePagesFailedMsg, true⟩ }, false)
      else
        let needIdx := booksNeedSeriesIdx s5.books
        let s6 := ((completionOrder 5 needIdx ss).foldl
          (loadSeriesStep env.fetchSeries needIdx.length) (s5, 0)).1
        ({ s6 with loading := false, loadingMessage := none }, false)

/-- `switchTopSeries(name)`: if the name is present, remove every occurrence
(`filter(s => s != name)`), otherwise push it; either way persist the new
list to localStorage. -/
def switchTopSeries (name : String) (s : ClientState) : ClientState :=
  if s.topSeries.contains name then
    let ts := s.topSeries.filter (fun x => x != name)
    { s with topSeries := ts, storedTopSeries := ts }
  else
    let ts := s.topSeries ++ [name]
    { s with topSeries := ts, storedTopSeries := ts }

/-- The ids actually seen in a run's fetched listing: page 1's records
followed by the records of every page in `2..P` whose fetch succeeded. -/
def seenIds (fp : Nat → Except FetchError (List FetchedBook))
    (bs1 : List FetchedBook) (P : Nat) : List Nat :=
  bs1.map FetchedBook.id ++
    ((pagesNeedLoad P).map (fun p => match fp p with
      | .ok bs => bs.map FetchedBook.id
      | .error _ => [])).flatten

/-- The per-page merged record blocks, laid out in a given page order. -/
def pagesMerged (fp : Nat → Except FetchError (List FetchedBook))
    (originBooks : List Book) (cs : List Nat) : List Book :=
  (cs.map (fun p => match fp p with
    | .ok bs => bs.map (mergeBook originBooks)
    | .error _ => [])).flatten

/-! ## The scheduler completes every task -/

/-- With a positive concurrency limit and enough fuel, every task completes:
the completion order produced by `runPM` is a permutation of the unstarted
tasks together with the in-flight ones. -/
theorem runPM_perm (limit : Nat) (hl : 1 ≤ limit) :
    ∀ (fuel : Nat) (toStart inFlight sched : List Nat),
      2 * toStart.length + inFlight.length ≤ fuel →
      List.Perm (runPM limit fuel toStart inFlight sched) (toStart ++ inFlight) := by
  intro fuel
  induction fuel with
  | zero =>
    intro toStart inFlight sched hf
    have h1 : toStart = [] := List.length_eq_zero.mp (by omega)
    have h2 : inFlight = [] := List.length_eq_zero.mp (by omega)
    subst h1; subst h2
    simp [runPM]
  | succ n ih =>
    intro toStart inFlight sched hf
    rw [runPM]
    by_cases hstart : toStart ≠ [] ∧ inFlight.length < limit
    · rw [if_pos hstart]
      cases toStart with
      | nil => exact absurd rfl hstart.1
      | cons a t =>
        simp only [List.tail_cons, List.headD_cons]
        have hperm := ih t (inFlight ++ [a]) sched (by simp at hf ⊢; omega)
        refine hperm.trans ?_
        refine (List.Perm.append_left t (List.perm_append_singleton a inFlight)).trans ?_
        exact List.perm_middle.trans (List.Perm.refl _)
    · rw [if_neg hstart]
      by_cases hfl : inFlight ≠ []
      · rw [if_pos hfl]
        have hlen : 0 < inFlight.length := List.length_pos.mpr hfl
        have hklt : sched.headD 0 % inFlight.length < inFlight.length :=
          Nat.mod_lt _ hlen
        have hmem : inFlight.getD (sched.headD 0 % inFlight.length) 0 ∈ inFlight := by
          rw [List.getD_eq_getElem?_getD, List.getElem?_eq_getElem hklt]
          exact List.getElem_mem hklt
        have herase :
            (inFlight.erase (inFlight.getD (sched.headD 0 % inFlight.length) 0)).length
              = inFlight.length - 1 :=
          List.length_erase_of_mem hmem
        have hperm := ih toStart
          (inFlight.erase (inFlight.getD (sched.headD 0 % inFlight.length) 0))
          sched.tail (by rw [herase]; omega)
        refine (List.Perm.cons _ hperm).trans ?_
        exact List.perm_middle.symm.trans
          (List.Perm.append_left toStart (List.perm_cons_erase hmem).symm)
      · rw [if_neg hfl]
        push_neg at hfl
        subst hfl
        have ht : toStart = [] := by
          by_contra hc
          exact hstart ⟨hc, by simpa using hl⟩
        subst ht
        exact List.Perm.nil

/-- With a positive limit the completion order of a batch is a permutation
of the batch. -/
theorem completionOrder_perm (limit : Nat) (hl : 1 ≤ limit)
    (tasks sched : List Nat) : List.Perm (completionOrder limit tasks sched) tasks := by
  have := runPM_perm limit hl (2 * tasks.length + 1) tasks [] sched
    (by simp only [List.length_nil]; omega)
  simpa using this

/-- Membership in the completion order of a batch with a positive limit. -/
theorem mem_completionOrder (limit : Nat) (hl : 1 ≤ limit)
    (tasks sched : List Nat) (i : Nat) :
    i ∈ completionOrder limit tasks sched ↔ i ∈ tasks :=
  (completionOrder_perm limit hl tasks sched).mem_iff

/-- C2: for every input sequence, per-item operation and limit ≥ 1, and for
every per-item completion order (schedule), `parallelMap` returns exactly
`len(inputs)` results in input order; a raising/rejecting operation
(`op a = .error e`) is recorded as that input's failed result and every
other input still runs to completion, so the output is pointwise
`some (op a)` with no result lost, duplicated, reordered or cancelled. -/
theorem parallelMap_ordered_complete {α ε ρ : Type} (inputs : List α)
    (op : α → Except ε ρ) (limit : Nat) (sched : List Nat) (hl : 1 ≤ limit) :
    parallelMap inputs op limit sched = inputs.map (fun a => some (op a)) ∧
    (parallelMap inputs op limit sched).length = inputs.length := by
  have hmain : parallelMap inputs op limit sched
      = inputs.map (fun a => some (op a)) := by
    simp only [parallelMap]
    refine List.ext_get?_iff.mpr fun n => ?_
    simp only [List.get?_map]
    by_cases hn : n < inputs.length
    · rw [List.get?_range hn]
      simp only [Option.map_some']
      rw [if_pos ((mem_completionOrder limit hl (List.range inputs.length)
        sched n).mpr (List.mem_range.mpr hn))]
      cases hg : inputs.get? n with
      | none => exact absurd (List.get?_eq_none.mp hg) (Nat.not_le.mpr hn)
      | some a => simp
    · have h1 : (List.range inputs.length).get? n = none :=
        List.get?_eq_none.mpr (by simpa using Nat.le_of_not_lt hn)
      have h2 : inputs.get? n = none := List.get?_eq_none.mpr (Nat.le_of_not_lt hn)
      rw [h1, h2]
      rfl
  exact ⟨hmain, by rw [hmain, List.length_map]⟩

/-- Concrete inputs for exercising the mapper: the middle item's operation
rejects, the others succeed. -/
def sampleOp : Nat → Except String Nat :=
  fun n => if n == 20 then Except.error "boom" else Except.ok n

/-- Witness for C2: three inputs, limit 2, a nontrivial schedule; the
middle operation rejects yet all three results are present, in input
order. -/
theorem parallelMap_ordered_complete_witness :
    1 ≤ 2 ∧ parallelMap [10, 20, 30] sampleOp 2 [1, 0, 0] =
      [some (Except.ok 10), some (Except.error "boom"), some (Except.ok 30)] := by
  have h := (parallelMap_ordered_complete [10, 20, 30] sampleOp 2 [1, 0, 0]
    (by omega)).1
  refine ⟨by omega, ?_⟩
  rw [h]
  rfl

/-! ## Characterizing the listing pass -/

/-- Setting a position of a list to the value it already holds is the
identity. -/
theorem set_same {α : Type} (l : List α) (i : Nat) (x : α)
    (h : l.get? i = some x) : l.set i x = l := by
  refine List.ext_get?_iff.mpr fun n => ?_
  by_cases hn : n = i
  · subst hn
    have hlt : n < l.length := by
      rcases List.get?_eq_some.mp h with ⟨hl, _⟩
      exact hl
    rw [List.get?_set_eq_of_lt _ hlt, h]
  · rw [List.get?_set_ne _ _ (fun he => hn he.symm)]

/-- The merge keeps the fetched record's id. -/
theorem mergeBook_id (ob : List Book) (fb : FetchedBook) :
    (mergeBook ob fb).id = fb.id := by
  rw [mergeBook]
  cases ob.find? (fun old => old.id == fb.id) <;> rfl

/-- The ids of a merged block are the ids of the fetched block. -/
theorem merged_ids (ob : List Book) (bs : List FetchedBook) :
    (bs.map (mergeBook ob)).map Book.id = bs.map FetchedBook.id := by
  induction bs with
  | nil => rfl
  | cons b bs ih => simp [ih, mergeBook_id]

/-- What the listing pass does to the state, for an arbitrary completion
order `cs` of the pages: every successful page's merged block is appended
(in completion order), the `loading` flag and the series data are
untouched, and persistence tracks the record set. -/
theorem pageFold_state (fp : Nat → Except FetchError (List FetchedBook))
    (ob : List Book) (P : Nat) :
    ∀ (cs : List Nat) (s : ClientState) (d : Nat),
      ((cs.foldl (loadPageStep fp ob P) (s, d)).1).books
          = s.books ++ pagesMerged fp ob cs ∧
      ((cs.foldl (loadPageStep fp ob P) (s, d)).1).loading = s.loading ∧
      ((cs.foldl (loadPageStep fp ob P) (s, d)).1).topSeries = s.topSeries ∧
      ((cs.foldl (loadPageStep fp ob P) (s, d)).1).storedTopSeries
          = s.storedTopSeries ∧
      (s.storedBooks = s.books →
        ((cs.foldl (loadPageStep fp ob P) (s, d)).1).storedBooks
          = ((cs.foldl (loadPageStep fp ob P) (s, d)).1).books) := by
  intro cs
  induction cs with
  | nil =>
    intro s d
    refine ⟨by simp [pagesMerged], rfl, rfl, rfl, fun h => h⟩
  | cons p cs ih =>
    intro s d
    simp only [List.foldl_cons]
    cases hp : fp p with
    | ok bs =>
      have hstep : loadPageStep fp ob P (s, d) p =
          ({ recordBookList ob bs s with
              loadingMessage := some ⟨loadingBooksMsg (d + 1 + 1) P, false⟩ },
           d + 1) := by
        simp [loadPageStep, hp]
      rw [hstep]
      obtain ⟨h1, h2, h3, h4, h5⟩ := ih
        { recordBookList ob bs s with
            loadingMessage := some ⟨loadingBooksMsg (d + 1 + 1) P, false⟩ } (d + 1)
      refine ⟨?_, h2, h3, h4, fun _ => h5 rfl⟩
      rw [h1]
      simp [recordBookList, pagesMerged, hp, List.append_assoc]
    | error e =>
      have hstep : loadPageStep fp ob P (s, d) p =
          ({ s with
              loadingMessage := some ⟨loadingBooksMsg (d + 1 + 1) P, false⟩ },
           d + 1) := by
        simp [loadPageStep, hp]
      rw [hstep]
      obtain ⟨h1, h2, h3, h4, h5⟩ := ih
        { s with loadingMessage := some ⟨loadingBooksMsg (d + 1 + 1) P, false⟩ }
        (d + 1)
      refine ⟨?_, h2, h3, h4, fun hs => h5 hs⟩
      rw [h1]
      simp [pagesMerged, hp]

/-! ## Characterizing the enrichment pass -/

/-- What the enrichment pass does to the state, for an arbitrary
duplicate-free completion order `cs` of the needy indices: each index in
`cs` gets its series assigned when its own `loadSeries` returns, and is
left untouched when its own `loadSeries` throws; indices outside `cs` are
untouched; ids (and hence lengths) are preserved throughout. -/
theorem seriesFold_state (fs : Nat → Option String) (total : Nat) :
    ∀ (cs : List Nat) (s : ClientState) (d : Nat),
      ((cs.foldl (loadSeriesStep fs total) (s, d)).1).loading = s.loading ∧
      ((cs.foldl (loadSeriesStep fs total) (s, d)).1).topSeries = s.topSeries ∧
      ((cs.foldl (loadSeriesStep fs total) (s, d)).1).storedTopSeries
          = s.storedTopSeries ∧
      ((cs.foldl (loadSeriesStep fs total) (s, d)).1).books.map Book.id
          = s.books.map Book.id ∧
      (∀ i, i ∉ cs →
        ((cs.foldl (loadSeriesStep fs total) (s, d)).1).books.get? i
          = s.books.get? i) ∧
      (cs.Nodup → ∀ i b, i ∈ cs → s.books.get? i = some b →
        ((cs.foldl (loadSeriesStep fs total) (s, d)).1).books.get? i
          = some (match fs b.id with
                  | some v => { b with series := some v }
                  | none => b)) := by
  intro cs
  induction cs with
  | nil =>
    intro s d
    exact ⟨rfl, rfl, rfl, rfl, fun i _ => rfl, fun _ i b hi _ => absurd hi (by simp)⟩
  | cons idx cs ih =>
    intro s d
    simp only [List.foldl_cons]
    cases hg : s.books.get? idx with
    | none =>
      have hstep : loadSeriesStep fs total (s, d) idx =
          ({ s with loadingMessage := some ⟨loadingSeriesMsg (d + 1) total, false⟩ },
           d + 1) := by
        simp only [loadSeriesStep]
        rw [hg]
      rw [hstep]
      obtain ⟨h1, h2, h3, h4, h5, h6⟩ := ih
        { s with loadingMessage := some ⟨loadingSeriesMsg (d + 1) total, false⟩ }
        (d + 1)
      refine ⟨h1, h2, h3, h4, ?_, ?_⟩
      · intro i hi
        exact h5 i (fun hc => hi (List.mem_cons_of_mem idx hc))
      · intro hnd i b hi hb
        rcases List.mem_cons.mp hi with he | hm
        · subst he
          rw [hb] at hg
          exact absurd hg (by simp)
        · exact h6 (List.Nodup.of_cons hnd) i b hm hb
    | some b0 =>
      cases hfs : fs b0.id with
      | none =>
        have hstep : loadSeriesStep fs total (s, d) idx =
            ({ s with loadingMessage := some ⟨loadingSeriesMsg (d + 1) total, false⟩ },
             d + 1) := by
          simp only [loadSeriesStep, hg, hfs]
        rw [hstep]
        obtain ⟨h1, h2, h3, h4, h5, h6⟩ := ih
          { s with loadingMessage := some ⟨loadingSeriesMsg (d + 1) total, false⟩ }
          (d + 1)
        refine ⟨h1, h2, h3, h4, ?_, ?_⟩
        · intro i hi
          exact h5 i (fun hc => hi (List.mem_cons_of_mem idx hc))
        · intro hnd i b hi hb
          have hidx : idx ∉ cs := (List.nodup_cons.mp hnd).1
          rcases List.mem_cons.mp hi with he | hm
          · subst he
            rw [hb] at hg
            injection hg with hbb
            subst hbb
            rw [h5 i hidx, hb, hfs]
          · exact h6 (List.Nodup.of_cons hnd) i b hm hb
      | some v =>
        have hstep : loadSeriesStep fs total (s, d) idx =
            ({ s with
                books := s.books.set idx { b0 with series := some v },
                storedBooks := s.books.set idx { b0 with series := some v },
                loadingMessage := some ⟨loadingSeriesMsg (d + 1) total, false⟩ },
             d + 1) := by
          simp only [loadSeriesStep, hg, hfs]
        rw [hstep]
        obtain ⟨h1, h2, h3, h4, h5, h6⟩ := ih
          { s with
              books := s.books.set idx { b0 with series := some v },
              storedBooks := s.books.set idx { b0 with series := some v },
              loadingMessage := some ⟨loadingSeriesMsg (d + 1) total, false⟩ }
          (d + 1)
        have hlt : idx < s.books.length := by
          rcases List.get?_eq_some.mp hg with ⟨hl, _⟩
          exact hl
        refine ⟨h1, h2, h3, ?_, ?_, ?_⟩
        · rw [h4]
          show (s.books.set idx { b0 with series := some v }).map Book.id
              = s.books.map Book.id
          rw [List.map_set]
          exact set_same _ _ _ (by rw [List.get?_map, hg]; rfl)
        · intro i hi
          have hne : idx ≠ i := fun he => hi (he ▸ List.mem_cons_self idx cs)
          rw [h5 i (fun hc => hi (List.mem_cons_of_mem idx hc))]
          show (s.books.set idx { b0 with series := some v }).get? i = s.books.get? i
          exact List.get?_set_ne _ _ hne
        · intro hnd i b hi hb
          have hidx : idx ∉ cs := (List.nodup_cons.mp hnd).1
          rcases List.mem_cons.mp hi with he | hm
          · subst he
            rw [hb] at hg
            injection hg with hbb
            subst hbb
            rw [h5 i hidx]
            show (s.books.set i { b with series := some v }).get? i = _
            rw [List.get?_set_eq_of_lt _ hlt, hfs]
          · have hne : idx ≠ i := fun he => hidx (he ▸ hm)
            refine h6 (List.Nodup.of_cons hnd) i b hm ?_
            show (s.books.set idx { b0 with series := some v }).get? i = some b
            rw [List.get?_set_ne _ _ hne]
            exact hb

/-- Field-level description of the state after the listing-fetch stage. -/
theorem listingStageState_spec (fp : Nat → Except FetchError (List FetchedBook))
    (bs1 : List FetchedBook) (P : Nat) (sp : List Nat) (s0 : ClientState) :
    (listingStageState fp bs1 P sp s0).books
        = bs1.map (mergeBook s0.books)
            ++ pagesMerged fp s0.books (completionOrder 5 (pagesNeedLoad P) sp) ∧
    (listingStageState fp bs1 P sp s0).loading = true ∧
    (listingStageState fp bs1 P sp s0).topSeries = s0.topSeries ∧
    (listingStageState fp bs1 P sp s0).storedTopSeries = s0.storedTopSeries ∧
    (listingStageState fp bs1 P sp s0).storedBooks
        = (listingStageState fp bs1 P sp s0).books := by
  have hfold := pageFold_state fp s0.books P
    (completionOrder 5 (pagesNeedLoad P) sp)
    { recordBookList s0.books bs1 { s0 with loading := true, books := ([] : List Book) }
        with loadingMessage := some ⟨loadingBooksMsg 1 P, false⟩ } 0
  obtain ⟨h1, h2, h3, h4, h5⟩ := hfold
  have hls : listingStageState fp bs1 P sp s0
      = ((completionOrder 5 (pagesNeedLoad P) sp).foldl (loadPageStep fp s0.books P)
          ({ recordBookList s0.books bs1 { s0 with loading := true, books := ([] : List Book) }
              with loadingMessage := some ⟨loadingBooksMsg 1 P, false⟩ }, 0)).1 := rfl
  rw [hls]
  refine ⟨?_, h2, h3, h4, h5 rfl⟩
  rw [h1]
  simp [recordBookList]

/-- The ids of the record set produced by the listing stage are a
permutation of the ids seen on the fetched pages. -/
theorem listing_ids_perm (fp : Nat → Except FetchError (List FetchedBook))
    (bs1 : List FetchedBook) (P : Nat) (sp : List Nat) (s0 : ClientState) :
    List.Perm ((listingStageState fp bs1 P sp s0).books.map Book.id)
      (seenIds fp bs1 P) := by
  rw [(listingStageState_spec fp bs1 P sp s0).1, List.map_append, merged_ids,
    seenIds]
  refine List.Perm.append_left _ ?_
  rw [pagesMerged, List.map_flatten, List.map_map]
  have hfun : (List.map Book.id ∘ fun p => match fp p with
        | .ok bs => bs.map (mergeBook s0.books)
        | .error _ => ([] : List Book))
      = (fun p => match fp p with
        | .ok bs => bs.map FetchedBook.id
        | .error _ => ([] : List Nat)) := by
    funext p
    simp only [Function.comp_apply]
    cases hp : fp p with
    | ok bs => exact merged_ids s0.books bs
    | error e => rfl
  rw [hfun]
  exact ((completionOrder_perm 5 (by omega) (pagesNeedLoad P) sp).map _).flatten

/-! ## The four terminal shapes of a run -/

/-- A `NO_LOGIN` page 1 ends the run at once: specific message, record set
cleared, persisted data untouched, no exception. -/
theorem reload_noLogin_eq (env : Env) (sp ss : List Nat) (s0 : ClientState)
    (h : env.fetchPage 1 = .error .noLogin) :
    reloadCollection env sp ss s0 =
      ({ s0 with
          loading := true,
          books := ([] : List Book),
          loadingMessage := some ⟨noLoginMsg, true⟩ }, false) := by
  simp only [reloadCollection, h]

/-- A `PARSING_ERROR` page 1 ends the run at once: specific message, record
set cleared, persisted data untouched, no exception. -/
theorem reload_parsingError_eq (env : Env) (sp ss : List Nat) (s0 : ClientState)
    (h : env.fetchPage 1 = .error .parsingError) :
    reloadCollection env sp ss s0 =
      ({ s0 with
          loading := true,
          books := ([] : List Book),
          loadingMessage := some ⟨parsingErrorMsg, true⟩ }, false) := by
  simp only [reloadCollection, h]

/-- When page 1 parses but the pagination structure is missing,
`parsePageCount` throws outside every try/catch: the run aborts with an
unhandled exception, no message is set, nothing is merged or persisted. -/
theorem reload_crash_eq (env : Env) (sp ss : List Nat) (s0 : ClientState)
    (bs1 : List FetchedBook) (h1 : env.fetchPage 1 = .ok bs1)
    (h2 : env.pagination = none) :
    reloadCollection env sp ss s0 =
      ({ s0 with
          loading := true,
          books := ([] : List Book) }, true) := by
  simp only [reloadCollection, h1, h2]

/-- When some page beyond page 1 failed, the run ends with the generic
partial-failure message on top of the listing-stage state. -/
theorem reload_partial_eq (env : Env) (sp ss : List Nat) (s0 : ClientState)
    (bs1 : List FetchedBook) (P : Nat) (h1 : env.fetchPage 1 = .ok bs1)
    (h2 : env.pagination = some P)
    (h3 : anyPageFailed env.fetchPage P = true) :
    reloadCollection env sp ss s0 =
      ({ listingStageState env.fetchPage bs1 P sp s0 with
          loadingMessage := some ⟨somePagesFailedMsg, true⟩ }, false) := by
  simp only [reloadCollection, listingStageState, h1, h2, h3, if_true]

/-- The state at the end of a fully successful run, before and after the
final clean-up of `loading` and `loadingMessage`. -/
def successState (fp : Nat → Except FetchError (List FetchedBook))
    (fs : Nat → Option String) (bs1 : List FetchedBook) (P : Nat)
    (sp ss : List Nat) (s0 : ClientState) : ClientState :=
  let m := listingStageState fp bs1 P sp s0
  let needIdx := booksNeedSeriesIdx m.books
  let r := ((completionOrder 5 needIdx ss).foldl
    (loadSeriesStep fs needIdx.length) (m, 0)).1
  { r with loading := false, loadingMessage := none }

/-- When page 1 and every further page succeed, the run performs the
enrichment pass and ends in the cleaned-up success state. -/
theorem reload_success_eq (env : Env) (sp ss : List Nat) (s0 : ClientState)
    (bs1 : List FetchedBook) (P : Nat) (h1 : env.fetchPage 1 = .ok bs1)
    (h2 : env.pagination = some P)
    (h3 : anyPageFailed env.fetchPage P = false) :
    reloadCollection env sp ss s0 =
      (successState env.fetchPage env.fetchSeries bs1 P sp ss s0, false) := by
  simp only [reloadCollection, successState, listingStageState, h1, h2, h3,
    Bool.false_eq_true, if_false]

/-! ## Concrete fixtures used by witnesses and counterexamples -/

/-- The idle client state: nothing loaded, nothing stored. -/
def idleState : ClientState :=
  { books := [], topSeries := [], loading := false, loadingMessage := none,
    storedBooks := [], storedTopSeries := [] }

/-- A previously synchronized book, favorite and enriched. -/
def bookA : Book :=
  { id := 1, name := "alpha", series := some "S", favorite := true,
    bookmark := false }

/-- A state that already holds `bookA`, in memory and persisted. -/
def stateWithA : ClientState :=
  { idleState with books := [bookA], storedBooks := [bookA] }

/-- A remote that answers every listing request with `NO_LOGIN`. -/
def envNoLogin : Env :=
  { fetchPage := fun _ => Except.error FetchError.noLogin, pagination := none,
    fetchSeries := fun _ => none }

/-- A remote whose page 1 parses its record list but has no pagination
structure. -/
def envCrash : Env :=
  { fetchPage := fun _ => Except.ok [], pagination := none,
    fetchSeries := fun _ => none }

/-- A remote that answers every listing request with `PARSING_ERROR`. -/
def envParseErr : Env :=
  { fetchPage := fun _ => Except.error FetchError.parsingError,
    pagination := none, fetchSeries := fun _ => none }

/-! ## C1 -/

/-- C1, counterexample to the claim as stated: with one previously stored
book and a `NO_LOGIN` page 1, the record set after the run is NOT unchanged
from its value before the run — `reloadCollection` clears `state.books`
before fetching and the early return leaves it empty. -/
theorem reload_noLogin_books_changed :
    (reloadCollection envNoLogin [] [] stateWithA).1.books ≠ stateWithA.books := by
  decide

/-- C1, amended: if the fetch of listing page 1 reports `NO_LOGIN`, the run
ends in the failed state with the specific not-logged-in message; the
in-memory record set is left empty (it was cleared at the start of the run)
and the persisted record set is unchanged from before the run. -/
theorem reload_noLogin_state (env : Env) (sp ss : List Nat) (s0 : ClientState)
    (h : env.fetchPage 1 = .error .noLogin) :
    (reloadCollection env sp ss s0).1.loadingMessage = some ⟨noLoginMsg, true⟩ ∧
    (reloadCollection env sp ss s0).1.books = [] ∧
    (reloadCollection env sp ss s0).1.storedBooks = s0.storedBooks ∧
    (reloadCollection env sp ss s0).2 = false := by
  rw [reload_noLogin_eq env sp ss s0 h]
  exact ⟨rfl, rfl, rfl, rfl⟩

/-- Witness for C1's amended theorem at a concrete not-logged-in run. -/
theorem reload_noLogin_state_witness :
    envNoLogin.fetchPage 1 = .error .noLogin ∧
    (reloadCollection envNoLogin [] [] stateWithA).1.loadingMessage
        = some ⟨noLoginMsg, true⟩ ∧
    (reloadCollection envNoLogin [] [] stateWithA).1.storedBooks = [bookA] :=
  ⟨rfl, (reload_noLogin_state envNoLogin [] [] stateWithA rfl).1,
   (reload_noLogin_state envNoLogin [] [] stateWithA rfl).2.2.1⟩

/-! ## C3 -/

/-- C3: the merge performed by `recordBookList` takes `id` and `name` from
the fetched record, `series` from the previous record with the same id when
one exists and `null` otherwise, and `favorite`/`bookmark` from the
previous record when one exists and `false` otherwise; in particular a
previously favorite record re-fetched under a new name stays favorite and
gets the new name, and `recordBookList` appends exactly these merged
records and persists the result. -/
theorem mergeBook_recordBookList_spec (originBooks : List Book)
    (fb : FetchedBook) :
    (mergeBook originBooks fb).id = fb.id ∧
    (mergeBook originBooks fb).name = fb.name ∧
    (mergeBook originBooks fb).series
        = (match originBooks.find? (fun old => old.id == fb.id) with
           | some old => old.series
           | none => none) ∧
    (mergeBook originBooks fb).favorite
        = (match originBooks.find? (fun old => old.id == fb.id) with
           | some old => old.favorite
           | none => false) ∧
    (mergeBook originBooks fb).bookmark
        = (match originBooks.find? (fun old => old.id == fb.id) with
           | some old => old.bookmark
           | none => false) ∧
    (∀ old, originBooks.find? (fun o => o.id == fb.id) = some old →
      old.favorite = true →
      (mergeBook originBooks fb).favorite = true ∧
      (mergeBook originBooks fb).name = fb.name) ∧
    (∀ (fetched : List FetchedBook) (s : ClientState),
      (recordBookList originBooks fetched s).books
          = s.books ++ fetched.map (mergeBook originBooks) ∧
      (recordBookList originBooks fetched s).storedBooks
          = (recordBookList originBooks fetched s).books) := by
  cases hf : originBooks.find? (fun old => old.id == fb.id) with
  | some old =>
    refine ⟨by simp [mergeBook, hf], by simp [mergeBook, hf],
      by simp [mergeBook, hf], by simp [mergeBook, hf], by simp [mergeBook, hf],
      ?_, fun fetched s => ⟨rfl, rfl⟩⟩
    intro old0 h0 hfav
    injection h0 with he
    subst he
    exact ⟨by simp [mergeBook, hf, hfav], by simp [mergeBook, hf]⟩
  | none =>
    refine ⟨by simp [mergeBook, hf], by simp [mergeBook, hf],
      by simp [mergeBook, hf], by simp [mergeBook, hf], by simp [mergeBook, hf],
      ?_, fun fetched s => ⟨rfl, rfl⟩⟩
    intro old0 h0 hfav
    exact Option.noConfusion h0

/-- A stored book about to be re-fetched under a new name. -/
def oldBookW : Book :=
  { id := 7, name := "old", series := some "SS", favorite := true,
    bookmark := false }

/-- Witness for C3 at a concrete favorite record re-fetched with a new
name: the merge keeps `favorite = true` and takes the new name. -/
theorem mergeBook_recordBookList_spec_witness :
    (mergeBook [oldBookW] ⟨7, "new"⟩).favorite = true ∧
    (mergeBook [oldBookW] ⟨7, "new"⟩).name = "new" :=
  ((mergeBook_recordBookList_spec [oldBookW] ⟨7, "new"⟩).2.2.2.2.2.1 oldBookW
    (by decide) (by decide))

/-! ## C7 -/

/-- C7, counterexample to the claim as stated: when page 1 is retrieved and
its record list parses but the pagination structure is missing, the run
does not end in the failed state with the `UnparsablePage` message — it
aborts with an unhandled exception from `parsePageCount` and no message is
ever set. -/
theorem reload_crash_no_message :
    (reloadCollection envCrash [] [] idleState).2 = true ∧
    (reloadCollection envCrash [] [] idleState).1.loadingMessage
        ≠ some ⟨parsingErrorMsg, true⟩ := by
  decide

/-- C7, amended: if page 1 is retrieved but its record-list structure is
not found, the stage terminates immediately in the failed state with the
distinct unparsable-page message and no further pages are attempted; if the
record list parses but the pagination structure is missing, the run aborts
with an unhandled exception before any merge, message update or further
page fetch. -/
theorem reload_unparsable_spec (env : Env) (sp ss : List Nat)
    (s0 : ClientState) :
    (env.fetchPage 1 = .error .parsingError →
      reloadCollection env sp ss s0 =
        ({ s0 with
            loading := true,
            books := ([] : List Book),
            loadingMessage := some ⟨parsingErrorMsg, true⟩ }, false)) ∧
    (∀ bs1, env.fetchPage 1 = .ok bs1 → env.pagination = none →
      reloadCollection env sp ss s0 =
        ({ s0 with
            loading := true,
            books := ([] : List Book) }, true)) :=
  ⟨fun h => reload_parsingError_eq env sp ss s0 h,
   fun bs1 h1 h2 => reload_crash_eq env sp ss s0 bs1 h1 h2⟩

/-- Witness for C7's amended theorem: the unparsable-record-list run ends
with the distinct message; the missing-pagination run aborts with the
exception flag set. -/
theorem reload_unparsable_spec_witness :
    (reloadCollection envParseErr [] [] idleState).1.loadingMessage
        = some ⟨parsingErrorMsg, true⟩ ∧
    (reloadCollection envCrash [] [] idleState).2 = true := by
  constructor
  · rw [(reload_unparsable_spec envParseErr [] [] idleState).1 rfl]
  · rw [(reload_unparsable_spec envCrash [] [] idleState).2 [] rfl rfl]

/-! ## C10 -/

/-- C10: one `switchTopSeries(name)` adds the name when absent and removes
every occurrence when present, so calling it twice in succession leaves the
membership of `topSeries` unchanged. -/
theorem switchTopSeries_toggle (s : ClientState) (name : String) :
    (∀ x, x ∈ (switchTopSeries name (switchTopSeries name s)).topSeries ↔
        x ∈ s.topSeries) ∧
    (s.topSeries.contains name = false →
      (switchTopSeries name s).topSeries = s.topSeries ++ [name]) ∧
    (s.topSeries.contains name = true →
      ∀ x, x ∈ (switchTopSeries name s).topSeries ↔
        (x ∈ s.topSeries ∧ x ≠ name)) := by
  by_cases hmem : name ∈ s.topSeries
  · have hc : s.topSeries.contains name = true := by
      rw [List.contains_eq_any_beq]
      exact List.any_eq_true.mpr ⟨name, hmem, by simp⟩
    have h1 : (switchTopSeries name s).topSeries
        = s.topSeries.filter (fun x => x != name) := by
      rw [switchTopSeries, if_pos hc]
    have hnm : name ∉ s.topSeries.filter (fun x => x != name) := by
      intro hy
      have := (List.mem_filter.mp hy).2
      simp at this
    have hc2 : ((switchTopSeries name s).topSeries).contains name = false := by
      rw [h1, Bool.eq_false_iff]
      intro hcc
      rw [List.contains_eq_any_beq] at hcc
      obtain ⟨y, hy, hb⟩ := List.any_eq_true.mp hcc
      exact hnm ((eq_of_beq hb) ▸ hy)
    have h2 : (switchTopSeries name (switchTopSeries name s)).topSeries
        = (switchTopSeries name s).topSeries ++ [name] := by
      rw [switchTopSeries, if_neg (by rw [hc2]; exact Bool.false_ne_true)]
    refine ⟨?_, fun h => Bool.noConfusion (hc ▸ h), fun _ x => ?_⟩
    · intro x
      rw [h2, h1]
      simp only [List.mem_append, List.mem_filter, List.mem_singleton,
        bne_iff_ne, ne_eq]
      constructor
      · rintro (⟨hx, _⟩ | he)
        · exact hx
        · exact he ▸ hmem
      · intro hx
        by_cases hxe : x = name
        · exact Or.inr hxe
        · exact Or.inl ⟨hx, hxe⟩
    · rw [h1]
      simp [bne_iff_ne]
  · have hc : s.topSeries.contains name = false := by
      rw [Bool.eq_false_iff]
      intro hcc
      rw [List.contains_eq_any_beq] at hcc
      obtain ⟨y, hy, hb⟩ := List.any_eq_true.mp hcc
      exact hmem ((eq_of_beq hb) ▸ hy)
    have h1 : (switchTopSeries name s).topSeries = s.topSeries ++ [name] := by
      rw [switchTopSeries, if_neg (by rw [hc]; exact Bool.false_ne_true)]
    have hc2 : ((switchTopSeries name s).topSeries).contains name = true := by
      rw [h1, List.contains_eq_any_beq]
      exact List.any_eq_true.mpr ⟨name, by simp, by simp⟩
    have h2 : (switchTopSeries name (switchTopSeries name s)).topSeries
        = ((switchTopSeries name s).topSeries).filter (fun x => x != name) := by
      rw [switchTopSeries, if_pos hc2]
    have hl : s.topSeries.filter (fun x => x != name) = s.topSeries :=
      List.filter_eq_self.mpr (fun a ha => by
        simp only [bne_iff_ne, ne_eq, decide_eq_true_eq]
        intro he
        exact hmem (he ▸ ha))
    refine ⟨?_, fun _ => h1, fun h => Bool.noConfusion (hc ▸ h)⟩
    intro x
    rw [h2, h1, List.filter_append, hl]
    have hr : ([name].filter (fun x => x != name)) = [] := by simp
    rw [hr, List.append_nil]

/-- Witness for C10's inner implications at a concrete label list. -/
theorem switchTopSeries_toggle_witness :
    (∀ x, x ∈ (switchTopSeries "a" (switchTopSeries "a"
        { idleState with topSeries := ["a", "b", "a"] })).topSeries ↔
      x ∈ ["a", "b", "a"]) ∧
    (switchTopSeries "c" { idleState with topSeries := ["a", "b"] }).topSeries
        = ["a", "b", "c"] :=
  ⟨(switchTopSeries_toggle { idleState with topSeries := ["a", "b", "a"] } "a").1,
   (switchTopSeries_toggle { idleState with topSeries := ["a", "b"] } "c").2.1
     (by decide)⟩

/-! ## The enrichment input set and the success state -/

/-- An index is in the enrichment input set exactly when its book exists
and still has a null series. -/
theorem mem_booksNeedSeriesIdx (books : List Book) (i : Nat) :
    i ∈ booksNeedSeriesIdx books ↔
      ∃ b, books.get? i = some b ∧ b.series = none := by
  rw [booksNeedSeriesIdx, List.mem_filter, List.mem_range]
  cases hg : books.get? i with
  | none =>
    constructor
    · rintro ⟨hlt, hp⟩
      simp at hp
    · rintro ⟨b, hb, hs⟩
      cases hb
  | some b0 =>
    constructor
    · rintro ⟨hlt, hp⟩
      simp only [Option.map_some', Option.getD_some] at hp
      exact ⟨b0, rfl, Option.isNone_iff_eq_none.mp hp⟩
    · rintro ⟨b, hb, hs⟩
      injection hb with he
      subst he
      have hlt : i < books.length := by
        rcases List.get?_eq_some.mp hg with ⟨h, _⟩
        exact h
      refine ⟨hlt, ?_⟩
      simp only [Option.map_some', Option.getD_some]
      rw [hs]
      rfl

/-- The enrichment input set never repeats an index. -/
theorem nodup_booksNeedSeriesIdx (books : List Book) :
    (booksNeedSeriesIdx books).Nodup :=
  List.Nodup.filter _ (List.nodup_range _)

/-- Enrichment never changes the id column of the record set. -/
theorem successState_ids (fp : Nat → Except FetchError (List FetchedBook))
    (fs : Nat → Option String) (bs1 : List FetchedBook) (P : Nat)
    (sp ss : List Nat) (s0 : ClientState) :
    (successState fp fs bs1 P sp ss s0).books.map Book.id
      = (listingStageState fp bs1 P sp s0).books.map Book.id := by
  have F := seriesFold_state fs
    (booksNeedSeriesIdx (listingStageState fp bs1 P sp s0).books).length
    (completionOrder 5 (booksNeedSeriesIdx (listingStageState fp bs1 P sp s0).books) ss)
    (listingStageState fp bs1 P sp s0) 0
  exact F.2.2.2.1

/-- In the success state, an entry whose series is still null is exactly an
entry whose own `loadSeries` threw: the enrichment pass ran every needy
item to completion and only a raising fetch leaves the null in place. -/
theorem successState_series_none (fp : Nat → Except FetchError (List FetchedBook))
    (fs : Nat → Option String) (bs1 : List FetchedBook) (P : Nat)
    (sp ss : List Nat) (s0 : ClientState) :
    ∀ i b, (successState fp fs bs1 P sp ss s0).books.get? i = some b →
      b.series = none → fs b.id = none := by
  intro i b hget hser
  have F := seriesFold_state fs
    (booksNeedSeriesIdx (listingStageState fp bs1 P sp s0).books).length
    (completionOrder 5 (booksNeedSeriesIdx (listingStageState fp bs1 P sp s0).books) ss)
    (listingStageState fp bs1 P sp s0) 0
  replace hget : ((completionOrder 5
      (booksNeedSeriesIdx (listingStageState fp bs1 P sp s0).books) ss).foldl
      (loadSeriesStep fs
        (booksNeedSeriesIdx (listingStageState fp bs1 P sp s0).books).length)
      (listingStageState fp bs1 P sp s0, 0)).1.books.get? i = some b := hget
  set m := listingStageState fp bs1 P sp s0 with hm
  set nidx := booksNeedSeriesIdx m.books with hnidx
  set cs := completionOrder 5 nidx ss with hcs
  obtain ⟨f1, f2, f3, f4, f5, f6⟩ := F
  have hnd : cs.Nodup :=
    ((completionOrder_perm 5 (by omega) nidx ss).nodup_iff).mpr
      (nodup_booksNeedSeriesIdx m.books)
  by_cases hi : i ∈ cs
  · have hin : i ∈ nidx := (mem_completionOrder 5 (by omega) nidx ss i).mp hi
    obtain ⟨b0, hb0, hs0⟩ := (mem_booksNeedSeriesIdx m.books i).mp hin
    have hchar := f6 hnd i b0 hi hb0
    rw [hchar] at hget
    injection hget with he
    cases hfs : fs b0.id with
    | some v =>
      rw [hfs] at he
      rw [← he] at hser
      simp at hser
    | none =>
      rw [hfs] at he
      rw [← he]
      exact hfs
  · have heq := f5 i hi
    rw [heq] at hget
    have hin : i ∈ nidx := (mem_booksNeedSeriesIdx m.books i).mpr ⟨b, hget, hser⟩
    exact absurd ((mem_completionOrder 5 (by omega) nidx ss i).mpr hin) hi

/-! ## C4 -/

/-- C4, amended: after a synchronization run whose page 1 succeeded, every
id in the resulting record set comes from the fetched listing (so an id
absent from the new listing is absent from the result), and the merge step
introduces no duplicates of its own: whenever the ids of the fetched
listing are duplicate-free, so are the ids of the resulting record set.
(The merge step does NOT deduplicate a listing that itself repeats an id —
see the counterexample.) -/
theorem reload_ids_spec (env : Env) (sp ss : List Nat) (s0 : ClientState)
    (bs1 : List FetchedBook) (P : Nat)
    (h1 : env.fetchPage 1 = .ok bs1) (h2 : env.pagination = some P) :
    (∀ b ∈ (reloadCollection env sp ss s0).1.books,
        b.id ∈ seenIds env.fetchPage bs1 P) ∧
    ((seenIds env.fetchPage bs1 P).Nodup →
        ((reloadCollection env sp ss s0).1.books.map Book.id).Nodup) := by
  have hperm : List.Perm ((reloadCollection env sp ss s0).1.books.map Book.id)
      (seenIds env.fetchPage bs1 P) := by
    cases h3 : anyPageFailed env.fetchPage P with
    | true =>
      rw [reload_partial_eq env sp ss s0 bs1 P h1 h2 h3]
      exact listing_ids_perm env.fetchPage bs1 P sp s0
    | false =>
      rw [reload_success_eq env sp ss s0 bs1 P h1 h2 h3]
      have hids := successState_ids env.fetchPage env.fetchSeries bs1 P sp ss s0
      show List.Perm ((successState env.fetchPage env.fetchSeries bs1 P sp ss s0).books.map
        Book.id) (seenIds env.fetchPage bs1 P)
      rw [hids]
      exact listing_ids_perm env.fetchPage bs1 P sp s0
  constructor
  · intro b hb
    exact hperm.mem_iff.mp (List.mem_map_of_mem Book.id hb)
  · intro hnd
    exact hperm.nodup_iff.mpr hnd

/-- A remote listing that repeats id 1 on its single page. -/
def envDup : Env :=
  { fetchPage := fun _ => Except.ok [⟨1, "a"⟩, ⟨1, "b"⟩],
    pagination := some 1, fetchSeries := fun _ => some "X" }

/-- C4, counterexample to the claim as stated: a fetched listing containing
a duplicate id produces a record set in which that id occurs twice — the
merge step does not enforce uniqueness against a duplicated listing. -/
theorem reload_dup_ids :
    ¬ ((reloadCollection envDup [] [] idleState).1.books.map Book.id).Nodup := by
  decide

/-- A well-formed two-record remote listing. -/
def envTwo : Env :=
  { fetchPage := fun _ => Except.ok [⟨1, "a"⟩, ⟨2, "b"⟩],
    pagination := some 1, fetchSeries := fun _ => some "" }

/-- Witness for C4's amended theorem on a duplicate-free listing. -/
theorem reload_ids_spec_witness :
    (seenIds envTwo.fetchPage [⟨1, "a"⟩, ⟨2, "b"⟩] 1).Nodup ∧
    ((reloadCollection envTwo [] [] idleState).1.books.map Book.id).Nodup :=
  ⟨by decide,
   (reload_ids_spec envTwo [] [] idleState [⟨1, "a"⟩, ⟨2, "b"⟩] 1 rfl rfl).2
     (by decide)⟩

/-! ## C5 -/

/-- C5: when some page beyond page 1 fails, the run ends failed with the
generic partial-failure message, the in-progress flag still set, while the
merged records of page 1 and of every successfully fetched page are in the
record set and persisted — a failing page stops neither the fetching nor
the merging of the other pages. -/
theorem reload_partial_keeps (env : Env) (sp ss : List Nat) (s0 : ClientState)
    (bs1 : List FetchedBook) (P : Nat)
    (h1 : env.fetchPage 1 = .ok bs1) (h2 : env.pagination = some P)
    (h3 : anyPageFailed env.fetchPage P = true) :
    (reloadCollection env sp ss s0).2 = false ∧
    (reloadCollection env sp ss s0).1.loading = true ∧
    (reloadCollection env sp ss s0).1.loadingMessage
        = some ⟨somePagesFailedMsg, true⟩ ∧
    (reloadCollection env sp ss s0).1.storedBooks
        = (reloadCollection env sp ss s0).1.books ∧
    (∀ fb ∈ bs1, mergeBook s0.books fb ∈ (reloadCollection env sp ss s0).1.books) ∧
    (∀ p bs, p ∈ pagesNeedLoad P → env.fetchPage p = .ok bs →
      ∀ fb ∈ bs, mergeBook s0.books fb ∈ (reloadCollection env sp ss s0).1.books) := by
  obtain ⟨l1, l2, l3, l4, l5⟩ := listingStageState_spec env.fetchPage bs1 P sp s0
  rw [reload_partial_eq env sp ss s0 bs1 P h1 h2 h3]
  refine ⟨rfl, l2, rfl, l5, ?_, ?_⟩
  · intro fb hfb
    show mergeBook s0.books fb ∈ (listingStageState env.fetchPage bs1 P sp s0).books
    rw [l1]
    exact List.mem_append_left _ (List.mem_map_of_mem _ hfb)
  · intro p bs hp hok fb hfb
    show mergeBook s0.books fb ∈ (listingStageState env.fetchPage bs1 P sp s0).books
    rw [l1]
    refine List.mem_append_right _ ?_
    rw [pagesMerged]
    have hcs : p ∈ completionOrder 5 (pagesNeedLoad P) sp :=
      (mem_completionOrder 5 (by omega) _ sp p).mpr hp
    have hblk := List.mem_map_of_mem (fun q => match env.fetchPage q with
      | .ok bs => bs.map (mergeBook s0.books)
      | .error _ => ([] : List Book)) hcs
    simp only [hok] at hblk
    exact List.mem_flatten_of_mem hblk (List.mem_map_of_mem _ hfb)

/-- A three-page remote whose page 2 is unparsable while pages 1 and 3
succeed. -/
def envPartial : Env :=
  { fetchPage := fun p =>
      if p == 2 then Except.error FetchError.parsingError
      else if p == 3 then Except.ok [⟨3, "c"⟩] else Except.ok [⟨1, "a"⟩],
    pagination := some 3, fetchSeries := fun _ => some "" }

/-- Witness for C5 at the three-page scenario of the specification. -/
theorem reload_partial_keeps_witness :
    (reloadCollection envPartial [] [] idleState).1.loadingMessage
        = some ⟨somePagesFailedMsg, true⟩ ∧
    mergeBook idleState.books ⟨3, "c"⟩
        ∈ (reloadCollection envPartial [] [] idleState).1.books := by
  have h := reload_partial_keeps envPartial [] [] idleState [⟨1, "a"⟩] 3
    rfl rfl (by decide)
  exact ⟨h.2.2.1,
    h.2.2.2.2.2 3 [⟨3, "c"⟩] (by decide) rfl ⟨3, "c"⟩ (by decide)⟩

/-! ## C6 -/

/-- C6: when the listing stage fully succeeds, the pipeline always reaches
its success terminus — loading cleared, message cleared, no exception —
whatever the series fetches do; and an entry left with a null series is
exactly an entry whose own `loadSeries` raised, so a raising fetch is
captured as that item's failure and neither propagates out of the stage nor
prevents the other items from being enriched. -/
theorem enrichment_isolated (env : Env) (sp ss : List Nat) (s0 : ClientState)
    (bs1 : List FetchedBook) (P : Nat)
    (h1 : env.fetchPage 1 = .ok bs1) (h2 : env.pagination = some P)
    (h3 : anyPageFailed env.fetchPage P = false) :
    (reloadCollection env sp ss s0).2 = false ∧
    (reloadCollection env sp ss s0).1.loading = false ∧
    (reloadCollection env sp ss s0).1.loadingMessage = none ∧
    (∀ i b, (reloadCollection env sp ss s0).1.books.get? i = some b →
      b.series = none → env.fetchSeries b.id = none) := by
  rw [reload_success_eq env sp ss s0 bs1 P h1 h2 h3]
  exact ⟨rfl, rfl, rfl, fun i b hb hs =>
    successState_series_none env.fetchPage env.fetchSeries bs1 P sp ss s0 i b hb hs⟩

/-- A remote whose book 1 has a series while fetching book 2's series
throws. -/
def envMixedSeries : Env :=
  { fetchPage := fun _ => Except.ok [⟨1, "a"⟩, ⟨2, "b"⟩], pagination := some 1,
    fetchSeries := fun n => if n == 1 then some "S1" else none }

/-- Witness for C6: one series fetch throws, the run still ends cleanly and
the failure is attributed to that item alone. -/
theorem enrichment_isolated_witness :
    (reloadCollection envMixedSeries [] [] idleState).1.loading = false ∧
    (reloadCollection envMixedSeries [] [] idleState).1.loadingMessage = none ∧
    envMixedSeries.fetchSeries 2 = none := by
  have h := enrichment_isolated envMixedSeries [] [] idleState
    [⟨1, "a"⟩, ⟨2, "b"⟩] 1 rfl rfl (by decide)
  exact ⟨h.2.1, h.2.2.1,
    h.2.2.2 1 (Book.mk 2 "b" none false false) (by decide) rfl⟩

/-! ## C8 -/

/-- A single-book remote whose series fetch always throws. -/
def envOneBook : Env :=
  { fetchPage := fun _ => Except.ok [⟨1, "a"⟩], pagination := some 1,
    fetchSeries := fun _ => none }

/-- C8, counterexample to the claim as stated: a run can reach overall
success — loading cleared and message cleared to absent — while a record's
series is still null, because a throwing `loadSeries` is swallowed by the
mapper and the pipeline clears the progress state regardless. -/
theorem success_with_null_series :
    (reloadCollection envOneBook [] [] idleState).1.loading = false ∧
    (reloadCollection envOneBook [] [] idleState).1.loadingMessage = none ∧
    (reloadCollection envOneBook [] [] idleState).2 = false ∧
    ∃ b ∈ (reloadCollection envOneBook [] [] idleState).1.books,
      b.series = none := by
  decide

/-- C8, amended: after a synchronization run that reaches overall success,
every entity's series is non-null, provided every series fetch performed
for a null-series record returns instead of raising. -/
theorem success_series_total (env : Env) (sp ss : List Nat) (s0 : ClientState)
    (bs1 : List FetchedBook) (P : Nat)
    (h1 : env.fetchPage 1 = .ok bs1) (h2 : env.pagination = some P)
    (h3 : anyPageFailed env.fetchPage P = false)
    (hall : ∀ n, (env.fetchSeries n).isSome = true) :
    ∀ b ∈ (reloadCollection env sp ss s0).1.books, b.series ≠ none := by
  rw [reload_success_eq env sp ss s0 bs1 P h1 h2 h3]
  intro b hb hser
  obtain ⟨i, hi⟩ := List.mem_iff_get?.mp hb
  have hn := successState_series_none env.fetchPage env.fetchSeries bs1 P sp ss s0
    i b hi hser
  have hsome := hall b.id
  rw [hn] at hsome
  simp at hsome

/-- Witness for C8's amended theorem: with total series fetches, the
surviving record's series is non-null. -/
theorem success_series_total_witness :
    Book.mk 1 "a" (some "") false false
        ∈ (reloadCollection envTwo [] [] idleState).1.books ∧
    (Book.mk 1 "a" (some "") false false).series ≠ none :=
  ⟨by decide,
   success_series_total envTwo [] [] idleState [⟨1, "a"⟩, ⟨2, "b"⟩] 1 rfl rfl
     (by decide) (fun _ => rfl) (Book.mk 1 "a" (some "") false false) (by decide)⟩

/-! ## C9 -/

/-- C9: when the listing stage fails — page-1 fatal error or partial page
failure — the run sets the corresponding error message and returns with the
in-progress flag still set, and the final state is identical for any series
fetcher and any enrichment schedule (the enrichment stage is not run); when
the listing stage succeeds, the run continues through enrichment and ends
with the progress message cleared to absent and the in-progress flag
cleared. -/
theorem reload_stage_gate (e1 e2 : Env) (sp ss ss2 : List Nat)
    (s0 : ClientState) (hfp : e1.fetchPage = e2.fetchPage)
    (hpg : e1.pagination = e2.pagination) :
    (e1.fetchPage 1 = .error .noLogin →
      reloadCollection e1 sp ss s0 = reloadCollection e2 sp ss2 s0 ∧
      (reloadCollection e1 sp ss s0).1.loading = true ∧
      (reloadCollection e1 sp ss s0).1.loadingMessage = some ⟨noLoginMsg, true⟩) ∧
    (e1.fetchPage 1 = .error .parsingError →
      reloadCollection e1 sp ss s0 = reloadCollection e2 sp ss2 s0 ∧
      (reloadCollection e1 sp ss s0).1.loading = true ∧
      (reloadCollection e1 sp ss s0).1.loadingMessage
          = some ⟨parsingErrorMsg, true⟩) ∧
    (∀ bs1 P, e1.fetchPage 1 = .ok bs1 → e1.pagination = some P →
      anyPageFailed e1.fetchPage P = true →
      reloadCollection e1 sp ss s0 = reloadCollection e2 sp ss2 s0 ∧
      (reloadCollection e1 sp ss s0).1.loading = true ∧
      (reloadCollection e1 sp ss s0).1.loadingMessage
          = some ⟨somePagesFailedMsg, true⟩) ∧
    (∀ bs1 P, e1.fetchPage 1 = .ok bs1 → e1.pagination = some P →
      anyPageFailed e1.fetchPage P = false →
      (reloadCollection e1 sp ss s0).2 = false ∧
      (reloadCollection e1 sp ss s0).1.loading = false ∧
      (reloadCollection e1 sp ss s0).1.loadingMessage = none) := by
  refine ⟨?_, ?_, ?_, ?_⟩
  · intro h
    have h2' : e2.fetchPage 1 = .error .noLogin := by rw [← hfp]; exact h
    rw [reload_noLogin_eq e1 sp ss s0 h, reload_noLogin_eq e2 sp ss2 s0 h2']
    exact ⟨rfl, rfl, rfl⟩
  · intro h
    have h2' : e2.fetchPage 1 = .error .parsingError := by rw [← hfp]; exact h
    rw [reload_parsingError_eq e1 sp ss s0 h,
      reload_parsingError_eq e2 sp ss2 s0 h2']
    exact ⟨rfl, rfl, rfl⟩
  · intro bs1 P hok hP hfail
    have hok2 : e2.fetchPage 1 = .ok bs1 := by rw [← hfp]; exact hok
    have hP2 : e2.pagination = some P := by rw [← hpg]; exact hP
    have hfail2 : anyPageFailed e2.fetchPage P = true := by rw [← hfp]; exact hfail
    rw [reload_partial_eq e1 sp ss s0 bs1 P hok hP hfail,
      reload_partial_eq e2 sp ss2 s0 bs1 P hok2 hP2 hfail2, hfp]
    exact ⟨rfl, (listingStageState_spec e2.fetchPage bs1 P sp s0).2.1, rfl⟩
  · intro bs1 P hok hP hfail
    rw [reload_success_eq e1 sp ss s0 bs1 P hok hP hfail]
    exact ⟨rfl, rfl, rfl⟩

/-- Witness for C9: a partial-failure run keeps the error message while a
fully successful run clears it. -/
theorem reload_stage_gate_witness :
    (reloadCollection envPartial [] [] idleState).1.loadingMessage
        = some ⟨somePagesFailedMsg, true⟩ ∧
    (reloadCollection envTwo [] [] idleState).1.loadingMessage = none := by
  have hp := reload_stage_gate envPartial envPartial [] [] [] idleState rfl rfl
  have hs := reload_stage_gate envTwo envTwo [] [] [] idleState rfl rfl
  exact ⟨(hp.2.2.1 [⟨1, "a"⟩] 3 rfl rfl (by decide)).2.2,
    (hs.2.2.2 [⟨1, "a"⟩, ⟨2, "b"⟩] 1 rfl rfl (by decide)).2.2⟩

end BW
